import Mathlib

/-!
Verification of the attendance-control application (`src/App.tsx`) against its
specification.  The TypeScript source is shallowly embedded: the remote store
is modelled as explicit state (lists of rows), JavaScript strings are Lean
`String`s, and the JavaScript string primitives actually used by the source
(`split` with a one-character separator, `trim`, `toLowerCase`,
`replace(/x/g, y)`, `Array.prototype.join`) are embedded as structurally
recursive functions on the character list.  JavaScript numbers that flow
through the code opaquely (GPS coordinates) are embedded as `JSNumber`, which
records only what the program observes about them: whether they are finite and
how they render to text.  `Math.random()`-based draws are embedded as explicit
numeric arguments (a stream `Nat → Nat`, reduced modulo the sampled range, or a
single bounded `Nat`).
-/

namespace KontrolKeamanan

/-- Model of a JavaScript number as observed by this program: the code never
does arithmetic on the numbers it stores (GPS coordinates), it only renders
them into text and (per the spec) could test them for finiteness. -/
inductive JSNumber where
  | num (rendering : String)
  | nan
  | posInfinity
  | negInfinity
deriving DecidableEq

/-- Finiteness test on the embedded JavaScript numbers
(`Number.isFinite`). -/
def JSNumber.isFinite : JSNumber → Bool
  | .num _ => true
  | _ => false

/-- Rendering of an embedded JavaScript number into a string, as template
literals in the source do. -/
def JSNumber.render : JSNumber → String
  | .num s => s
  | .nan => "NaN"
  | .posInfinity => "Infinity"
  | .negInfinity => "-Infinity"

/-- Embedding of `String.prototype.split` with a one-character separator
(the source only ever splits on a single character), accumulator version. -/
def jsSplitCharAux (sep : Char) : List Char → List Char → List String
  | [], cur => [String.mk cur.reverse]
  | c :: rest, cur =>
    if c = sep then String.mk cur.reverse :: jsSplitCharAux sep rest []
    else jsSplitCharAux sep rest (c :: cur)

/-- Embedding of `s.split(sep)` for a one-character separator `sep`. -/
def jsSplitChar (sep : Char) (s : String) : List String :=
  jsSplitCharAux sep s.data []

/-- Whitespace predicate used by the embedded `trim`. -/
def jsIsWhitespace (c : Char) : Bool :=
  c = ' ' || c = '\t' || c = '\n' || c = '\r'

/-- Embedding of `String.prototype.trim`. -/
def jsTrim (s : String) : String :=
  String.mk (((s.data.dropWhile jsIsWhitespace).reverse.dropWhile jsIsWhitespace).reverse)

/-- Embedding of `String.prototype.toLowerCase`. -/
def jsToLower (s : String) : String :=
  String.mk (s.data.map Char.toLower)

/-- Embedding of `s.replace(/a/g, b)` for single characters `a`, `b`
(the source replaces every `/` of a date by `-`). -/
def jsReplaceChar (a b : Char) (s : String) : String :=
  String.mk (s.data.map fun c => if c = a then b else c)

/-- Embedding of `Array.prototype.join(sep)`. -/
def jsJoin (sep : String) : List String → String
  | [] => ""
  | [a] => a
  | a :: b :: rest => a ++ sep ++ jsJoin sep (b :: rest)

/-- Embedding of the JavaScript expression `a || b` for an optional string
`a` and string `b`: `a` wins unless it is absent or empty (both falsy).  The
source uses this as `item.photo_url || item.photo`. -/
def jsOrElse (a : Option String) (b : String) : String :=
  match a with
  | some s => if s = "" then b else s
  | none => b

/-- Roles of the `users` table (`'member' | 'admin'`). -/
inductive Role where
  | member
  | admin
deriving DecidableEq

/-- The `UserT` interface of the source: one row of the `users` table. -/
structure UserT where
  nip : String
  name : String
  password : String
  role : Role
deriving DecidableEq

/-- The `Comment` interface of the source: one audit comment attached to an
attendance record. -/
structure Comment where
  id : String
  adminId : String
  adminName : String
  text : String
  timestamp : String
deriving DecidableEq

/-- The `location` field of an attendance record. -/
structure Location where
  lat : JSNumber
  lng : JSNumber
deriving DecidableEq

/-- The `AttendanceRecord` interface of the source (the `editHistory` field is
always the empty list: `getAttendances` hard-codes `editHistory: []` and
nothing ever appends to it, so it is omitted from the embedding). -/
structure AttendanceRecord where
  id : String
  userId : String
  userName : String
  date : String
  time : String
  position : String
  photo : String
  description : String
  location : Location
  comments : List Comment
deriving DecidableEq

/-- One row of the `attendances` table, with the column names used by
`addAttendance` / `getAttendances`.  `photo_url` is a column that
`addAttendance` never writes (it stays absent) but `getAttendances` prefers
when present. -/
structure AttendanceRow where
  id : String
  user_id : String
  user_name : String
  date : String
  time : String
  position : String
  photo_url : Option String
  photo : String
  description : String
  location_lat : JSNumber
  location_lng : JSNumber
  comments : List Comment
deriving DecidableEq

/-- State of the `attendances` table.  `rows` is kept in `created_at`
(insertion) order, oldest first; the `id` of a fresh row is generated by the
external store and modelled as the decimal rendering of the row count. -/
structure AttendanceStore where
  rows : List AttendanceRow
deriving DecidableEq

/-- State of the `daily_token` table: `(date, code)` rows. -/
structure TokenStore where
  tokens : List (String × String)
deriving DecidableEq

/-- Conversion performed inside `DatabaseHelper.getAttendances` from a raw
store row to an `AttendanceRecord` (`photo: item.photo_url || item.photo`,
`comments: item.comments || []`, `editHistory: []`). -/
def rowToRecord (r : AttendanceRow) : AttendanceRecord :=
  { id := r.id
    userId := r.user_id
    userName := r.user_name
    date := r.date
    time := r.time
    position := r.position
    photo := jsOrElse r.photo_url r.photo
    description := r.description
    location := { lat := r.location_lat, lng := r.location_lng }
    comments := r.comments }

/-- `DatabaseHelper.getAttendances`: all rows, ordered by `created_at`
descending (most recent first), converted to records. -/
def getAttendances (s : AttendanceStore) : List AttendanceRecord :=
  s.rows.reverse.map rowToRecord

/-- `DatabaseHelper.addAttendance`: inserts one row built from the record; the
`id` column is generated by the store and the `photo_url` column is not
supplied. -/
def addAttendance (s : AttendanceStore) (record : AttendanceRecord) : AttendanceStore :=
  { rows := s.rows ++
      [{ id := Nat.repr s.rows.length
         user_id := record.userId
         user_name := record.userName
         date := record.date
         time := record.time
         position := record.position
         photo_url := none
         photo := record.photo
         description := record.description
         location_lat := record.location.lat
         location_lng := record.location.lng
         comments := record.comments }] }

/-- `DatabaseHelper.addComment`: `update({comments}).eq('id', recordId)` —
replaces the `comments` column of every row whose `id` equals `recordId`. -/
def addComment (s : AttendanceStore) (recordId : String) (comments : List Comment) : AttendanceStore :=
  { rows := s.rows.map fun r => if r.id == recordId then { r with comments := comments } else r }

/-- `DatabaseHelper.updateUserPassword`: sets the `password` column of every
user row whose `nip` matches. -/
def updateUserPassword (users : List UserT) (nip newPass : String) : List UserT :=
  users.map fun u => if u.nip == nip then { u with password := newPass } else u

/-- `DatabaseHelper.addUser`: inserts the user; the external store enforces
the unique-`nip` invariant of the data model (the source surfaces the failure
as a thrown error, caught by the callers), so insertion of a duplicate `nip`
fails and leaves the table unchanged. -/
def addUser (users : List UserT) (u : UserT) : Option (List UserT) :=
  if users.any fun v => v.nip == u.nip then none else some (users ++ [u])

/-- `DatabaseHelper.getDailyToken`.  `today` is the value of
`new Date().toLocaleDateString('id-ID')` at the call; `r` embeds the draw
`Math.floor(Math.random() * 9000)` (so the intended range is `r < 9000`, and
the generated code is `(1000 + r).toString()`).  Returns the code together
with the resulting `daily_token` table. -/
def getDailyToken (s : TokenStore) (today : String) (r : Nat) : String × TokenStore :=
  match s.tokens.find? fun row => row.1 == today with
  | some row => (row.2, s)
  | none =>
      let newCode := Nat.repr (1000 + r)
      (newCode, { tokens := s.tokens ++ [(today, newCode)] })

/-- Failure kinds of `AttendanceForm.submit` as the source distinguishes them:
the incomplete-data guard (`alert('Mohon lengkapi data!')`) and the
geolocation error callback (`alert('Gagal mendapatkan lokasi GPS.')`). -/
inductive SubmitError where
  | incomplete
  | gpsFailure
deriving DecidableEq

/-- `AttendanceForm.submit`.  `geo` is the outcome of
`navigator.geolocation.getCurrentPosition`: `none` when the error callback
fires, `some (lat, lng)` when the success callback delivers coordinates.
`date` and `time` embed `new Date().toLocaleDateString('id-ID')` and
`new Date().toLocaleTimeString('id-ID')` at submission time.  Returns the
failure (if any) and the resulting attendance table. -/
def submit (s : AttendanceStore) (user : UserT) (position desc photo : String)
    (geo : Option (JSNumber × JSNumber)) (date time : String) :
    Option SubmitError × AttendanceStore :=
  if position = "" || desc = "" || photo = "" then (some .incomplete, s)
  else
    match geo with
    | none => (some .gpsFailure, s)
    | some (lat, lng) =>
        (none,
          addAttendance s
            { id := ""
              userId := user.nip
              userName := user.name
              date := date
              time := time
              position := position
              photo := photo
              description := desc
              location := { lat := lat, lng := lng }
              comments := [] })

/-- Failure kinds of `ChangePasswordPage.handleSubmit`, in the order its
guards run. -/
inductive ChangePasswordError where
  | emptyFields
  | wrongOldPassword
  | confirmMismatch
  | passwordTooShort
deriving DecidableEq

/-- `ChangePasswordPage.handleSubmit`: the four guards in source order, then
`updateUserPassword`.  Returns the failure (if any) and the resulting `users`
table. -/
def handleSubmitPassword (users : List UserT) (user : UserT)
    (oldPass newPass confirmPass : String) :
    Option ChangePasswordError × List UserT :=
  if oldPass = "" || newPass = "" || confirmPass = "" then (some .emptyFields, users)
  else if oldPass ≠ user.password then (some .wrongOldPassword, users)
  else if newPass ≠ confirmPass then (some .confirmMismatch, users)
  else if newPass.length < 4 then (some .passwordTooShort, users)
  else (none, updateUserPassword users user.nip newPass)

/-- Outcome of `DailyReportView.handleAudit`: either the early `return` taken
when the record id does not resolve (no store write, no message), or the
success path (`addComment` write followed by `alert('Komentar terkirim.')`). -/
inductive AuditOutcome where
  | silentReturn
  | sent (store : AttendanceStore)
deriving DecidableEq

/-- The comment object built inside `handleAudit` (`commentId` embeds
`Date.now().toString()` and `timestamp` embeds
`new Date().toLocaleString()`). -/
def mkAuditComment (adminUser : UserT) (text commentId timestamp : String) : Comment :=
  { id := commentId
    adminId := adminUser.nip
    adminName := adminUser.name
    text := text
    timestamp := timestamp }

/-- `DailyReportView.handleAudit`: looks the record up in the fetched
`attendances` list, silently returns when absent, otherwise persists the
record's comments extended with the new comment. -/
def handleAudit (store : AttendanceStore) (attendances : List AttendanceRecord)
    (adminUser : UserT) (recordId text commentId timestamp : String) : AuditOutcome :=
  match attendances.find? fun a => a.id == recordId with
  | none => .silentReturn
  | some record =>
      .sent (addComment store recordId
        (record.comments ++ [mkAuditComment adminUser text commentId timestamp]))

/-- The send button next to `commentInput`: `if (input.value) { handleAudit(…) }`
— a blank input means nothing happens at all (`none`). -/
def commentSend (store : AttendanceStore) (attendances : List AttendanceRecord)
    (adminUser : UserT) (recordId inputValue commentId timestamp : String) :
    Option AuditOutcome :=
  if inputValue = "" then none
  else some (handleAudit store attendances adminUser recordId inputValue commentId timestamp)

/-- `DailyReportView.uniqueDates`: `Array.from(new Set(xs))` keeps the first
occurrence of each element in insertion order; `insertionDedup seen l` drops
the elements of `l` already in `seen` and records the ones it keeps. -/
def insertionDedup (seen : List String) : List String → List String
  | [] => []
  | a :: l => if a ∈ seen then insertionDedup seen l else a :: insertionDedup (a :: seen) l

/-- `DailyReportView.uniqueDates = Array.from(new Set(attendances.map(a => a.date)))`. -/
def uniqueDates (attendances : List AttendanceRecord) : List String :=
  insertionDedup [] (attendances.map fun a => a.date)

/-- `DailyReportView.dayRecords = attendances.filter(a => a.date === selectedDate)`. -/
def dayRecords (attendances : List AttendanceRecord) (date : String) : List AttendanceRecord :=
  attendances.filter fun a => a.date == date

/-- The per-date count shown on each date card:
`attendances.filter(a => a.date === date).length`. -/
def dateCount (attendances : List AttendanceRecord) (date : String) : Nat :=
  (attendances.filter fun a => a.date == date).length

/-- The header row of `DailyReportView.handleDownloadCSV`. -/
def csvHeader : String := "NIP,Nama,Tanggal,Jam,Jabatan,Keterangan,Lokasi"

/-- One data row of `handleDownloadCSV`, the template literal
`${userId},"${userName}",${date},${time},"${position}","${description}","${lat}, ${lng}"`. -/
def csvRow (d : AttendanceRecord) : String :=
  d.userId ++ ",\"" ++ d.userName ++ "\"," ++ d.date ++ "," ++ d.time ++ ",\"" ++
    d.position ++ "\",\"" ++ d.description ++ "\",\"" ++ d.location.lat.render ++ ", " ++
    d.location.lng.render ++ "\""

/-- The CSV document assembled by `handleDownloadCSV`:
`[headers, ...rows].join("\n")` (without the `data:` URI prefix, which merely
wraps this document for download). -/
def csvContent (data : List AttendanceRecord) : String :=
  jsJoin "\n" (csvHeader :: data.map csvRow)

/-- The download filename set by `handleDownloadCSV`:
`Absensi_${date.replace(/\//g, '-')}.csv`. -/
def csvFilename (date : String) : String :=
  "Absensi_" ++ jsReplaceChar '/' '-' date ++ ".csv"

/-- The password alphabet of `generatePassword`. -/
def passwordChars : String := "abcdefghijklmnopqrstuvwxyz0123456789"

/-- `generatePassword`: six draws `chars.charAt(Math.floor(Math.random() * 36))`.
`rng` is the stream of raw draws and `pos` the index of the first draw used;
each draw is reduced modulo the alphabet size to embed
`Math.floor(Math.random() * chars.length) < chars.length`.  Returns the
password and the next unused stream index. -/
def generatePassword (rng : Nat → Nat) (pos : Nat) : String × Nat :=
  (String.mk ((List.range 6).map fun i => passwordChars.data.getD (rng (pos + i) % 36) '*'),
    pos + 6)

/-- The user built from one import line: `nip` and `name` from the first two
comma-separated fields (trimmed), role `admin` exactly when the trimmed,
lower-cased third field is `admin` (a missing third field behaves like an
empty one, hence `member`), password freshly generated. -/
def importCandidate (rng : Nat → Nat) (pos : Nat) (line : String) : UserT :=
  let row := jsSplitChar ',' line
  { nip := jsTrim (row.getD 0 "")
    name := jsTrim (row.getD 1 "")
    role := if jsToLower (jsTrim (row.getD 2 "")) = "admin" then Role.admin else Role.member
    password := (generatePassword rng pos).1 }

/-- One iteration of the import loop of `UserManagementView.handleImport`:
splits the line on commas, skips it when it has fewer than two fields,
otherwise generates a password and attempts `addUser`, counting only
successes (a failed insert is caught and skipped).  State is
`(users table, success count, rng stream position)`. -/
def importLine (rng : Nat → Nat) (state : List UserT × Nat × Nat) (line : String) :
    List UserT × Nat × Nat :=
  if 2 ≤ (jsSplitChar ',' line).length then
    match addUser state.1 (importCandidate rng state.2.2 line) with
    | some users2 => (users2, state.2.1 + 1, (generatePassword rng state.2.2).2)
    | none => (state.1, state.2.1, (generatePassword rng state.2.2).2)
  else state

/-- The body of `handleImport` applied to the split lines: the loop
`for (let i = 1; i < lines.length; i++)` processes every line but the
first. -/
def handleImportLines (users : List UserT) (lines : List String) (rng : Nat → Nat) :
    List UserT × Nat × Nat :=
  (lines.drop 1).foldl (importLine rng) (users, 0, 0)

/-- `UserManagementView.handleImport`: splits the file text on newlines and
runs the import loop. -/
def handleImport (users : List UserT) (text : String) (rng : Nat → Nat) :
    List UserT × Nat × Nat :=
  handleImportLines users (jsSplitChar '\n' text) rng

/-- Quote-aware CSV field splitter (the well-formedness yardstick the spec's
quoting requirement refers to): commas inside double quotes do not separate
fields.  State: remaining characters, inside-quotes flag, current field
(reversed). -/
def splitCSVAux : List Char → Bool → List Char → List String
  | [], _, cur => [String.mk cur.reverse]
  | c :: rest, inQ, cur =>
    if c = '"' then splitCSVAux rest (!inQ) cur
    else if c = ',' && !inQ then String.mk cur.reverse :: splitCSVAux rest inQ []
    else splitCSVAux rest inQ (c :: cur)

/-- Splits one CSV row into its fields. -/
def splitCSV (s : String) : List String :=
  splitCSVAux s.data false []

/-! ### Decimal rendering of four-digit numbers -/

theorem toDigitsCore_step (f n : Nat) (ds : List Char) (h : 10 ≤ n) :
    Nat.toDigitsCore 10 (f + 1) n ds =
      Nat.toDigitsCore 10 f (n / 10) (Nat.digitChar (n % 10) :: ds) := by
  simp only [Nat.toDigitsCore]
  rw [if_neg (by omega : ¬ n / 10 = 0)]

theorem toDigitsCore_last (f n : Nat) (ds : List Char) (h1 : 0 < n) (h2 : n < 10) :
    Nat.toDigitsCore 10 (f + 1) n ds = Nat.digitChar n :: ds := by
  simp only [Nat.toDigitsCore]
  rw [if_pos (by omega : n / 10 = 0), Nat.mod_eq_of_lt h2]

theorem toDigitsCore_of_4digit (f n : Nat) (ds : List Char) (h1 : 1000 ≤ n) (h2 : n < 10000) :
    Nat.toDigitsCore 10 (f + 4) n ds =
      Nat.digitChar (n / 1000) :: Nat.digitChar (n / 100 % 10) ::
        Nat.digitChar (n / 10 % 10) :: Nat.digitChar (n % 10) :: ds := by
  have e1 : f + 4 = (f + 3) + 1 := by omega
  rw [e1, toDigitsCore_step _ _ _ (by omega)]
  have e2 : f + 3 = (f + 2) + 1 := by omega
  rw [e2, toDigitsCore_step _ _ _ (by omega : 10 ≤ n / 10)]
  have e3 : f + 2 = (f + 1) + 1 := by omega
  have e10 : n / 10 / 10 = n / 100 := by
    rw [Nat.div_div_eq_div_mul]
  rw [e3, e10, toDigitsCore_step _ _ _ (by omega : 10 ≤ n / 100)]
  have e100 : n / 100 / 10 = n / 1000 := by
    rw [Nat.div_div_eq_div_mul]
  rw [e100, toDigitsCore_last _ _ _ (by omega) (by omega)]

theorem repr_of_4digit (n : Nat) (h1 : 1000 ≤ n) (h2 : n < 10000) :
    Nat.repr n = String.mk [Nat.digitChar (n / 1000), Nat.digitChar (n / 100 % 10),
      Nat.digitChar (n / 10 % 10), Nat.digitChar (n % 10)] := by
  show (Nat.toDigits 10 n).asString = _
  unfold Nat.toDigits
  have e : n + 1 = (n - 3) + 4 := by omega
  rw [e, toDigitsCore_of_4digit _ _ _ h1 h2]
  rfl

theorem digitChar_isDigit (m : Nat) (h : m < 10) : (Nat.digitChar m).isDigit = true := by
  interval_cases m <;> decide

/-! ### C1: daily token idempotence and shape -/

/-- Claim C1: on any day, a call of `getDailyToken` that finds a stored code returns
it and leaves the store untouched; starting from a store with no code for the
day, a first call persists a fresh code and a second call returns that very
code with the store unchanged — and the fresh code is the decimal rendering of
a value in 1000–9999, a 4-character all-digit string. -/
theorem getDailyToken_idempotent_and_code_wellformed
    (s : TokenStore) (today : String) (r r2 : Nat)
    (hr : r < 9000)
    (habsent : s.tokens.find? (fun row => row.1 == today) = none) :
    (∀ (s2 : TokenStore) (row : String × String),
        s2.tokens.find? (fun row2 => row2.1 == today) = some row →
        getDailyToken s2 today r2 = (row.2, s2)) ∧
    (getDailyToken (getDailyToken s today r).2 today r2).1 = (getDailyToken s today r).1 ∧
    (getDailyToken (getDailyToken s today r).2 today r2).2 = (getDailyToken s today r).2 ∧
    (getDailyToken s today r).2.tokens = s.tokens ++ [(today, (getDailyToken s today r).1)] ∧
    (∃ v, 1000 ≤ v ∧ v ≤ 9999 ∧ (getDailyToken s today r).1 = Nat.repr v) ∧
    (getDailyToken s today r).1.length = 4 ∧
    (∀ c ∈ (getDailyToken s today r).1.data, c.isDigit = true) := by
  have hstored : ∀ (s2 : TokenStore) (row : String × String),
      s2.tokens.find? (fun row2 => row2.1 == today) = some row →
      getDailyToken s2 today r2 = (row.2, s2) := by
    intro s2 row h
    unfold getDailyToken
    rw [h]
  have hfirst : getDailyToken s today r =
      (Nat.repr (1000 + r), ⟨s.tokens ++ [(today, Nat.repr (1000 + r))]⟩) := by
    unfold getDailyToken
    rw [habsent]
  have hfind2 : (getDailyToken s today r).2.tokens.find? (fun row2 => row2.1 == today) =
      some (today, Nat.repr (1000 + r)) := by
    rw [hfirst]
    show (s.tokens ++ [(today, Nat.repr (1000 + r))]).find? (fun row2 => row2.1 == today) = _
    rw [List.find?_append, habsent]
    simp [List.find?]
  have hsecond := hstored _ _ hfind2
  have hb1 : 1000 ≤ 1000 + r := by omega
  have hb2 : 1000 + r < 10000 := by omega
  have hrepr := repr_of_4digit (1000 + r) hb1 hb2
  refine ⟨hstored, ?_, ?_, ?_, ?_, ?_, ?_⟩
  · rw [hsecond, hfirst]
  · rw [hsecond, hfirst]
  · rw [hfirst]
  · exact ⟨1000 + r, hb1, by omega, by rw [hfirst]⟩
  · rw [hfirst]
    show (Nat.repr (1000 + r)).length = 4
    rw [hrepr]
    rfl
  · rw [hfirst]
    show ∀ c ∈ (Nat.repr (1000 + r)).data, c.isDigit = true
    rw [hrepr]
    intro c hc
    have hc4 : c = Nat.digitChar ((1000 + r) / 1000) ∨ c = Nat.digitChar ((1000 + r) / 100 % 10) ∨
        c = Nat.digitChar ((1000 + r) / 10 % 10) ∨ c = Nat.digitChar ((1000 + r) % 10) := by
      simpa using hc
    rcases hc4 with h | h | h | h <;> rw [h]
    · exact digitChar_isDigit _ (by omega)
    · exact digitChar_isDigit _ (by omega)
    · exact digitChar_isDigit _ (by omega)
    · exact digitChar_isDigit _ (by omega)

/-- Witness for C1, on the empty token store, day `10/5/2024`, draw 3821. -/
theorem getDailyToken_idempotent_witness :
    (getDailyToken (getDailyToken ⟨[]⟩ "10/5/2024" 3821).2 "10/5/2024" 7).1 =
      (getDailyToken ⟨[]⟩ "10/5/2024" 3821).1 ∧
    (getDailyToken ⟨[]⟩ "10/5/2024" 3821).1.length = 4 :=
  ⟨(getDailyToken_idempotent_and_code_wellformed ⟨[]⟩ "10/5/2024" 3821 7 (by decide) rfl).2.1,
   (getDailyToken_idempotent_and_code_wellformed ⟨[]⟩ "10/5/2024" 3821 7 (by decide) rfl).2.2.2.2.2.1⟩

/-! ### C2 and C6: the audit-comment trail -/

/-- The comments currently stored for `recordId` (empty when the id does not
resolve). -/
def commentsOf (s : AttendanceStore) (recordId : String) : List Comment :=
  ((s.rows.find? fun r => r.id == recordId).map fun r => r.comments).getD []

/-- A sequence of `handleAudit` calls on the same record, each using the
attendance list refreshed from the store (the source calls `onRefresh()` after
every successful send).  Each list entry carries the comment text, the fresh
comment id and the timestamp of that call. -/
def appendRun (store : AttendanceStore) (admin : UserT) (recordId : String) :
    List (String × String × String) → AttendanceStore
  | [] => store
  | x :: rest =>
    match handleAudit store (getAttendances store) admin recordId x.1 x.2.1 x.2.2 with
    | .silentReturn => appendRun store admin recordId rest
    | .sent s2 => appendRun s2 admin recordId rest

theorem find?_eq_of_unique {α : Type} (p : α → Bool) (l : List α) (a : α)
    (ha : a ∈ l) (hpa : p a = true) (huniq : ∀ b ∈ l, p b = true → b = a) :
    l.find? p = some a := by
  induction l with
  | nil => cases ha
  | cons x xs ih =>
    by_cases hx : p x = true
    · have hxa : x = a := huniq x (List.mem_cons_self _ _) hx
      subst hxa
      simp [List.find?, hx]
    · have hx2 : p x = false := by
        cases h : p x
        · rfl
        · exact absurd h hx
      have hxa : a ≠ x := fun h => hx (h ▸ hpa)
      have ha2 : a ∈ xs := by
        rcases List.mem_cons.mp ha with h | h
        · exact absurd h hxa
        · exact h
      simp only [List.find?, hx2]
      exact ih ha2 fun b hb hpb => huniq b (List.mem_cons_of_mem _ hb) hpb

theorem rowToRecord_id (r : AttendanceRow) : (rowToRecord r).id = r.id := rfl

/-- The updater applied to each row by `addComment` keeps the row id. -/
theorem addComment_row_id (recordId : String) (cs : List Comment) (r : AttendanceRow) :
    (if r.id == recordId then { r with comments := cs } else r).id = r.id := by
  by_cases h : r.id == recordId
  · rw [if_pos h]
  · rw [if_neg h]

theorem addComment_ids (store : AttendanceStore) (recordId : String) (cs : List Comment) :
    (addComment store recordId cs).rows.map (fun r => r.id) =
      store.rows.map fun r => r.id := by
  show ((store.rows.map fun r =>
      if r.id == recordId then { r with comments := cs } else r).map fun r => r.id) =
    store.rows.map fun r => r.id
  rw [List.map_map]
  exact List.map_congr_left fun r _ => addComment_row_id recordId cs r

/-- With pairwise-distinct row ids, `getAttendances` finds exactly the record
converted from the unique row carrying the id. -/
theorem getAttendances_find (store : AttendanceStore) (recordId : String)
    (row : AttendanceRow)
    (hnd : (store.rows.map fun r => r.id).Nodup)
    (hrow : row ∈ store.rows) (hid : row.id = recordId) :
    (getAttendances store).find? (fun a => a.id == recordId) = some (rowToRecord row) := by
  apply find?_eq_of_unique
  · exact List.mem_map_of_mem rowToRecord (List.mem_reverse.mpr hrow)
  · show ((rowToRecord row).id == recordId) = true
    rw [rowToRecord_id, hid]
    exact beq_self_eq_true recordId
  · intro b hb hpb
    rcases List.mem_map.mp hb with ⟨r2, hr2, rfl⟩
    have hr2m : r2 ∈ store.rows := List.mem_reverse.mp hr2
    have hid2 : r2.id = recordId := by
      have := of_decide_eq_true (by simpa [rowToRecord_id] using hpb : decide ((rowToRecord r2).id = recordId) = true)
      simpa [rowToRecord_id] using this
    have : r2 = row := List.inj_on_of_nodup_map hnd hr2m hrow (by rw [hid2, hid])
    rw [this]

theorem handleAudit_found (store : AttendanceStore) (admin : UserT)
    (recordId text cid ts : String) (row : AttendanceRow)
    (hnd : (store.rows.map fun r => r.id).Nodup)
    (hrow : row ∈ store.rows) (hid : row.id = recordId) :
    handleAudit store (getAttendances store) admin recordId text cid ts =
      .sent (addComment store recordId
        (row.comments ++ [mkAuditComment admin text cid ts])) := by
  unfold handleAudit
  rw [getAttendances_find store recordId row hnd hrow hid]
  rfl

theorem commentsOf_eq (store : AttendanceStore) (recordId : String) (row : AttendanceRow)
    (hnd : (store.rows.map fun r => r.id).Nodup)
    (hrow : row ∈ store.rows) (hid : row.id = recordId) :
    commentsOf store recordId = row.comments := by
  unfold commentsOf
  rw [find?_eq_of_unique _ _ row hrow (by rw [hid]; exact beq_self_eq_true recordId) ?uniq]
  case uniq =>
    intro b hb hpb
    have hidb : b.id = recordId := of_decide_eq_true hpb
    exact List.inj_on_of_nodup_map hnd hb hrow (by rw [hidb, hid])
  rfl

/-- The row stored for `recordId` after `addComment`. -/
theorem addComment_mem (store : AttendanceStore) (recordId : String) (cs : List Comment)
    (row : AttendanceRow) (hrow : row ∈ store.rows) (hid : row.id = recordId) :
    { row with comments := cs } ∈ (addComment store recordId cs).rows := by
  show _ ∈ store.rows.map _
  have : (if row.id == recordId then { row with comments := cs } else row) =
      { row with comments := cs } := by
    rw [if_pos (by rw [hid]; exact beq_self_eq_true recordId)]
  exact this ▸ List.mem_map_of_mem _ hrow

theorem appendRun_comments (admin : UserT) (recordId : String)
    (L : List (String × String × String)) :
    ∀ (store : AttendanceStore),
      (store.rows.map fun r => r.id).Nodup →
      ∀ row ∈ store.rows, row.id = recordId →
      commentsOf (appendRun store admin recordId L) recordId =
        row.comments ++ L.map fun x => mkAuditComment admin x.1 x.2.1 x.2.2 := by
  induction L with
  | nil =>
    intro store hnd row hrow hid
    show commentsOf store recordId = row.comments ++ []
    rw [commentsOf_eq store recordId row hnd hrow hid, List.append_nil]
  | cons x L ih =>
    intro store hnd row hrow hid
    have hstep := handleAudit_found store admin recordId x.1 x.2.1 x.2.2 row hnd hrow hid
    have hrun : appendRun store admin recordId (x :: L) =
        appendRun (addComment store recordId
          (row.comments ++ [mkAuditComment admin x.1 x.2.1 x.2.2])) admin recordId L := by
      show (match handleAudit store (getAttendances store) admin recordId x.1 x.2.1 x.2.2 with
        | AuditOutcome.silentReturn => appendRun store admin recordId L
        | AuditOutcome.sent s2 => appendRun s2 admin recordId L) =
        appendRun (addComment store recordId
          (row.comments ++ [mkAuditComment admin x.1 x.2.1 x.2.2])) admin recordId L
      rw [hstep]
    have hmem := addComment_mem store recordId
      (row.comments ++ [mkAuditComment admin x.1 x.2.1 x.2.2]) row hrow hid
    have hnd2 : ((addComment store recordId
        (row.comments ++ [mkAuditComment admin x.1 x.2.1 x.2.2])).rows.map fun r => r.id).Nodup := by
      rw [addComment_ids]
      exact hnd
    have hih := ih (addComment store recordId
        (row.comments ++ [mkAuditComment admin x.1 x.2.1 x.2.2])) hnd2
      { row with comments := row.comments ++ [mkAuditComment admin x.1 x.2.1 x.2.2] } hmem hid
    rw [hrun, hih]
    simp

/-- Claim C2: `appendComment` (the `handleAudit` + `addComment` path) is
append-only.  Starting from a store with pairwise-distinct record ids holding
the target record with an empty comment list, appending the sequence `L` of
comments yields exactly `L` (as comment objects) in append order; the stored
sequence has length `N = L.length`, and after any prefix of the run the
comments already stored form a prefix of the final sequence — no field of a
previously appended comment ever changes. -/
theorem appendComment_append_only (store : AttendanceStore) (admin : UserT)
    (recordId : String) (L : List (String × String × String))
    (hnd : (store.rows.map fun r => r.id).Nodup)
    (row : AttendanceRow) (hrow : row ∈ store.rows) (hid : row.id = recordId)
    (hempty : row.comments = []) :
    commentsOf (appendRun store admin recordId L) recordId =
      (L.map fun x => mkAuditComment admin x.1 x.2.1 x.2.2) ∧
    (commentsOf (appendRun store admin recordId L) recordId).length = L.length ∧
    ∀ L1 L2, L = L1 ++ L2 →
      commentsOf (appendRun store admin recordId L) recordId =
        commentsOf (appendRun store admin recordId L1) recordId ++
          (L2.map fun x => mkAuditComment admin x.1 x.2.1 x.2.2) := by
  have hmain := appendRun_comments admin recordId L store hnd row hrow hid
  rw [hempty] at hmain
  simp only [List.nil_append] at hmain
  refine ⟨hmain, by rw [hmain, List.length_map], ?_⟩
  intro L1 L2 hsplit
  have h1 := appendRun_comments admin recordId L1 store hnd row hrow hid
  rw [hempty] at h1
  simp only [List.nil_append] at h1
  rw [hmain, h1, hsplit, List.map_append]

/-- Sample admin user for concrete instantiations. -/
def sampleAdmin : UserT :=
  { nip := "A1", name := "Admin Satu", password := "pw123", role := .admin }

/-- Sample stored attendance row (empty comment list). -/
def sampleRow : AttendanceRow :=
  { id := "r1"
    user_id := "M001"
    user_name := "Jane"
    date := "10/5/2024"
    time := "08:00:00"
    position := "Staff"
    photo_url := none
    photo := "imgdata"
    description := "Patrol"
    location_lat := .num "-6.2"
    location_lng := .num "106.8"
    comments := [] }

/-- Sample one-row attendance store. -/
def sampleStore : AttendanceStore := ⟨[sampleRow]⟩

/-- Witness for C2: two comments appended to the sample record arrive in
order, untouched. -/
theorem appendComment_append_only_witness :
    commentsOf (appendRun sampleStore sampleAdmin "r1"
        [("Confirmed on-site", "5", "t1"), ("Good report", "6", "t2")]) "r1" =
      [mkAuditComment sampleAdmin "Confirmed on-site" "5" "t1",
       mkAuditComment sampleAdmin "Good report" "6" "t2"] :=
  (appendComment_append_only sampleStore sampleAdmin "r1"
    [("Confirmed on-site", "5", "t1"), ("Good report", "6", "t2")]
    (by decide) sampleRow (by decide) (by decide) (by decide)).1

/-- Counterexample for C6: on a store and attendance list without record
`r9`, `handleAudit` takes the early `return` — the outcome is
`silentReturn`, which carries no failure kind at all (nothing is alerted,
nothing is thrown), so the unresolved id is not surfaced as a
`RecordNotFound`-style failure; and a blank comment leaves the send button
doing nothing rather than producing an `EmptyComment` failure. -/
theorem handleAudit_missing_silent_counterexample :
    handleAudit sampleStore (getAttendances sampleStore) sampleAdmin "r9" "note" "7" "t3" =
      .silentReturn ∧
    commentSend sampleStore (getAttendances sampleStore) sampleAdmin "r1" "" "7" "t3" =
      none := by
  constructor
  · rfl
  · rfl

/-- Claim C6 (amended): when `recordId` does not resolve in the fetched attendance
list, `handleAudit` silently returns — no failure of any kind is surfaced and
the store is not written; when the comment text is blank the send button does
not invoke the append at all, so no `EmptyComment` failure exists either. -/
theorem handleAudit_silent_on_missing_and_blank (store : AttendanceStore)
    (attendances : List AttendanceRecord) (adminUser : UserT)
    (recordId text commentId timestamp : String)
    (hmiss : attendances.find? (fun a => a.id == recordId) = none) :
    handleAudit store attendances adminUser recordId text commentId timestamp =
      .silentReturn ∧
    commentSend store attendances adminUser recordId "" commentId timestamp = none := by
  constructor
  · unfold handleAudit
    rw [hmiss]
  · rfl

/-- Witness for the amended C6 at a concrete store and unresolved id. -/
theorem handleAudit_silent_witness :
    handleAudit sampleStore (getAttendances sampleStore) sampleAdmin "r9" "note" "7" "t3" =
      .silentReturn ∧
    commentSend sampleStore (getAttendances sampleStore) sampleAdmin "r9" "" "7" "t3" = none :=
  handleAudit_silent_on_missing_and_blank sampleStore (getAttendances sampleStore) sampleAdmin
    "r9" "note" "7" "t3" (by decide)

/-! ### C3 and C4: attendance submission -/

/-- The record freshly inserted by `addAttendance` shows up in
`getAttendances` with every submitted field intact. -/
theorem mem_getAttendances_addAttendance (s : AttendanceStore) (record : AttendanceRecord) :
    ∃ rec ∈ getAttendances (addAttendance s record),
      rec.userId = record.userId ∧ rec.userName = record.userName ∧
      rec.position = record.position ∧ rec.description = record.description ∧
      rec.photo = record.photo ∧ rec.location = record.location ∧
      rec.date = record.date ∧ rec.time = record.time ∧ rec.comments = record.comments := by
  refine ⟨rowToRecord
    { id := Nat.repr s.rows.length
      user_id := record.userId
      user_name := record.userName
      date := record.date
      time := record.time
      position := record.position
      photo_url := none
      photo := record.photo
      description := record.description
      location_lat := record.location.lat
      location_lng := record.location.lng
      comments := record.comments }, ?_, ?_⟩
  · unfold getAttendances addAttendance
    simp
  · exact ⟨rfl, rfl, rfl, rfl, rfl, rfl, rfl, rfl, rfl⟩

/-- Counterexample for C3: a submission whose latitude is `NaN` (not a finite
number) but whose position, description and photo are non-empty is accepted
— no failure is reported and a record is persisted — so `submit` does not
reject non-finite coordinates. -/
theorem submit_nonfinite_accepted_counterexample :
    (submit sampleStore sampleAdmin "Staff" "Patrol" "img"
        (some (JSNumber.nan, JSNumber.num "106.8")) "10/5/2024" "08:00:00").1 = none ∧
    JSNumber.isFinite JSNumber.nan = false ∧
    (submit sampleStore sampleAdmin "Staff" "Patrol" "img"
        (some (JSNumber.nan, JSNumber.num "106.8")) "10/5/2024" "08:00:00").2.rows.length =
      sampleStore.rows.length + 1 := by
  refine ⟨rfl, rfl, rfl⟩

/-- Claim C3 (amended): `submit` fails with the incomplete-submission error exactly
when position, description or photo is empty; every failure leaves the store
unchanged; with the three fields non-empty any delivered coordinate pair is
accepted without a finiteness check, while a missing location is the distinct
geolocation failure. -/
theorem submit_incomplete_iff_empty_field (s : AttendanceStore) (user : UserT)
    (position desc photo : String) (geo : Option (JSNumber × JSNumber)) (date time : String) :
    ((submit s user position desc photo geo date time).1 = some SubmitError.incomplete ↔
      (position = "" ∨ desc = "" ∨ photo = "")) ∧
    ((submit s user position desc photo geo date time).1 ≠ none →
      (submit s user position desc photo geo date time).2 = s) ∧
    (∀ lat lng, position ≠ "" → desc ≠ "" → photo ≠ "" →
      (submit s user position desc photo (some (lat, lng)) date time).1 = none) ∧
    (position ≠ "" → desc ≠ "" → photo ≠ "" →
      (submit s user position desc photo none date time).1 = some SubmitError.gpsFailure) := by
  by_cases hc : position = "" ∨ desc = "" ∨ photo = ""
  · have hb : (decide (position = "") || decide (desc = "") || decide (photo = "")) = true := by
      rcases hc with h | h | h <;> simp [h]
    refine ⟨?_, ?_, ?_, ?_⟩
    · simp [submit, hb, hc]
    · intro _
      simp [submit, hb]
    · intro lat lng hp hd hph
      rcases hc with h | h | h
      · exact absurd h hp
      · exact absurd h hd
      · exact absurd h hph
    · intro hp hd hph
      rcases hc with h | h | h
      · exact absurd h hp
      · exact absurd h hd
      · exact absurd h hph
  · push_neg at hc
    have hb : (decide (position = "") || decide (desc = "") || decide (photo = "")) = false := by
      simp [hc.1, hc.2.1, hc.2.2]
    refine ⟨?_, ?_, ?_, ?_⟩
    · cases geo with
      | none => simp [submit, hb, hc.1, hc.2.1, hc.2.2]
      | some p =>
        cases p with
        | mk lat lng => simp [submit, hb, hc.1, hc.2.1, hc.2.2]
    · cases geo with
      | none =>
        intro _
        simp [submit, hb]
      | some p =>
        cases p with
        | mk lat lng =>
          intro h
          exact absurd (by simp [submit, hb]) h
    · intro lat lng _ _ _
      simp [submit, hb]
    · intro _ _ _
      simp [submit, hb]

/-- Witness for the amended C3: with all fields filled and a delivered
location the sample submission is not the incomplete failure; with an empty
description it is. -/
theorem submit_incomplete_iff_witness :
    ¬ ((submit sampleStore sampleAdmin "Staff" "Patrol" "img"
        (some (JSNumber.num "-6.2", JSNumber.num "106.8")) "10/5/2024" "08:00:00").1 =
          some SubmitError.incomplete) ∧
    (submit sampleStore sampleAdmin "Staff" "" "img"
        (some (JSNumber.num "-6.2", JSNumber.num "106.8")) "10/5/2024" "08:00:00").1 =
      some SubmitError.incomplete :=
  ⟨fun h => by
      have := (submit_incomplete_iff_empty_field sampleStore sampleAdmin "Staff" "Patrol" "img"
        (some (JSNumber.num "-6.2", JSNumber.num "106.8")) "10/5/2024" "08:00:00").1.mp h
      simp at this,
   (submit_incomplete_iff_empty_field sampleStore sampleAdmin "Staff" "" "img"
      (some (JSNumber.num "-6.2", JSNumber.num "106.8")) "10/5/2024" "08:00:00").1.mpr
      (Or.inr (Or.inl rfl))⟩

/-- Claim C4: a valid submission (non-empty position, description, photo, a
delivered location) succeeds, and the refreshed attendance list contains a
record whose `userId`, `userName`, `position`, `description`, `photo` and
`location` equal the submitted values, whose `date` and `time` are the
submitter's local calendar day and time-of-day at submission, and whose
comment list is empty. -/
theorem submit_then_list_contains (s : AttendanceStore) (user : UserT)
    (position desc photo : String) (lat lng : JSNumber) (date time : String)
    (hp : position ≠ "") (hd : desc ≠ "") (hph : photo ≠ "") :
    (submit s user position desc photo (some (lat, lng)) date time).1 = none ∧
    ∃ rec ∈ getAttendances (submit s user position desc photo (some (lat, lng)) date time).2,
      rec.userId = user.nip ∧ rec.userName = user.name ∧ rec.position = position ∧
      rec.description = desc ∧ rec.photo = photo ∧
      rec.location = { lat := lat, lng := lng } ∧ rec.date = date ∧ rec.time = time ∧
      rec.comments = [] := by
  have hb : (decide (position = "") || decide (desc = "") || decide (photo = "")) = false := by
    simp [hp, hd, hph]
  have hsub : submit s user position desc photo (some (lat, lng)) date time =
      (none, addAttendance s
        { id := ""
          userId := user.nip
          userName := user.name
          date := date
          time := time
          position := position
          photo := photo
          description := desc
          location := { lat := lat, lng := lng }
          comments := [] }) := by
    simp [submit, hb]
  rw [hsub]
  exact ⟨rfl, mem_getAttendances_addAttendance s _⟩

/-- Witness for C4 at the sample submission. -/
theorem submit_then_list_witness :
    (submit sampleStore sampleAdmin "Staff" "Patrol" "img"
        (some (JSNumber.num "-6.2", JSNumber.num "106.8")) "10/5/2024" "08:00:00").1 = none ∧
    ∃ rec ∈ getAttendances (submit sampleStore sampleAdmin "Staff" "Patrol" "img"
        (some (JSNumber.num "-6.2", JSNumber.num "106.8")) "10/5/2024" "08:00:00").2,
      rec.userId = sampleAdmin.nip ∧ rec.userName = sampleAdmin.name ∧ rec.position = "Staff" ∧
      rec.description = "Patrol" ∧ rec.photo = "img" ∧
      rec.location = { lat := JSNumber.num "-6.2", lng := JSNumber.num "106.8" } ∧
      rec.date = "10/5/2024" ∧ rec.time = "08:00:00" ∧ rec.comments = [] :=
  submit_then_list_contains sampleStore sampleAdmin "Staff" "Patrol" "img"
    (JSNumber.num "-6.2") (JSNumber.num "106.8") "10/5/2024" "08:00:00"
    (by decide) (by decide) (by decide)

/-! ### C5: password change -/

/-- Claim C5: `handleSubmit` of the change-password page rejects every call whose
new password is shorter than 4 characters and every call whose old password
differs from the stored one, leaving the `users` table unchanged in both
cases; when the wrong-old-password guard is the one that fires the failure is
`wrongOldPassword`, and when all earlier guards pass but the new password is
short the failure is `passwordTooShort`. -/
theorem changePassword_rejections (users : List UserT) (user : UserT)
    (oldPass newPass confirmPass : String) :
    (newPass.length < 4 →
      (handleSubmitPassword users user oldPass newPass confirmPass).1 ≠ none ∧
      (handleSubmitPassword users user oldPass newPass confirmPass).2 = users) ∧
    (oldPass ≠ user.password →
      (handleSubmitPassword users user oldPass newPass confirmPass).1 ≠ none ∧
      (handleSubmitPassword users user oldPass newPass confirmPass).2 = users) ∧
    (oldPass ≠ "" → newPass ≠ "" → confirmPass ≠ "" → oldPass ≠ user.password →
      (handleSubmitPassword users user oldPass newPass confirmPass).1 =
        some ChangePasswordError.wrongOldPassword) ∧
    (oldPass ≠ "" → newPass ≠ "" → confirmPass ≠ "" → oldPass = user.password →
      newPass = confirmPass → newPass.length < 4 →
      (handleSubmitPassword users user oldPass newPass confirmPass).1 =
        some ChangePasswordError.passwordTooShort) := by
  unfold handleSubmitPassword
  split_ifs with h1 h2 h3 h4 <;> refine ⟨?_, ?_, ?_, ?_⟩ <;> intros <;> simp_all <;> omega

/-- Witness for C5: a correct old password with a two-character new password
is rejected as too short with the table unchanged, and a wrong old password is
rejected as such. -/
theorem changePassword_rejections_witness :
    (handleSubmitPassword [sampleAdmin] sampleAdmin "pw123" "ab" "ab").1 =
      some ChangePasswordError.passwordTooShort ∧
    (handleSubmitPassword [sampleAdmin] sampleAdmin "pw123" "ab" "ab").2 = [sampleAdmin] ∧
    (handleSubmitPassword [sampleAdmin] sampleAdmin "zzz" "abcd" "abcd").1 =
      some ChangePasswordError.wrongOldPassword :=
  ⟨(changePassword_rejections [sampleAdmin] sampleAdmin "pw123" "ab" "ab").2.2.2
      (by decide) (by decide) (by decide) (by decide) (by decide) (by decide),
   ((changePassword_rejections [sampleAdmin] sampleAdmin "pw123" "ab" "ab").1 (by decide)).2,
   (changePassword_rejections [sampleAdmin] sampleAdmin "zzz" "abcd" "abcd").2.2.1
      (by decide) (by decide) (by decide) (by decide)⟩

/-! ### C7: date grouping -/

theorem mem_insertionDedup (l : List String) :
    ∀ (seen : List String) (d : String),
      d ∈ insertionDedup seen l ↔ (d ∈ l ∧ d ∉ seen) := by
  induction l with
  | nil =>
    intro seen d
    simp [insertionDedup]
  | cons a l ih =>
    intro seen d
    by_cases ha : a ∈ seen
    · rw [show insertionDedup seen (a :: l) = insertionDedup seen l from by
        simp [insertionDedup, ha]]
      rw [ih seen d]
      by_cases hd : d = a <;> simp_all
    · rw [show insertionDedup seen (a :: l) = a :: insertionDedup (a :: seen) l from by
        simp [insertionDedup, ha]]
      simp only [List.mem_cons, ih (a :: seen) d]
      by_cases hd : d = a <;> simp_all

theorem nodup_insertionDedup (l : List String) :
    ∀ seen : List String, (insertionDedup seen l).Nodup := by
  induction l with
  | nil =>
    intro seen
    simp [insertionDedup]
  | cons a l ih =>
    intro seen
    by_cases ha : a ∈ seen
    · rw [show insertionDedup seen (a :: l) = insertionDedup seen l from by
        simp [insertionDedup, ha]]
      exact ih seen
    · rw [show insertionDedup seen (a :: l) = a :: insertionDedup (a :: seen) l from by
        simp [insertionDedup, ha]]
      refine List.nodup_cons.mpr ⟨?_, ih (a :: seen)⟩
      intro hmem
      exact ((mem_insertionDedup l (a :: seen) a).mp hmem).2 (List.mem_cons_self a seen)

/-- Claim C7: the date grouping is a partition.  The bucket index `uniqueDates` is
duplicate-free and lists the date of every input record; each record occurs in
the bucket of its own date with exactly its multiplicity in the input and in
no bucket of any other date; and the per-date count displayed on the date card
equals the number of input records carrying that date. -/
theorem groupByDate_partition (attendances : List AttendanceRecord) :
    (uniqueDates attendances).Nodup ∧
    (∀ r ∈ attendances, r.date ∈ uniqueDates attendances) ∧
    (∀ r ∈ attendances, (dayRecords attendances r.date).count r = attendances.count r) ∧
    (∀ (d : String) (r : AttendanceRecord), r.date ≠ d →
      (dayRecords attendances d).count r = 0) ∧
    (∀ d : String, dateCount attendances d = attendances.countP fun a => a.date == d) := by
  refine ⟨nodup_insertionDedup _ [], ?_, ?_, ?_, ?_⟩
  · intro r hr
    exact (mem_insertionDedup _ [] r.date).mpr
      ⟨List.mem_map_of_mem (fun a => a.date) hr, List.not_mem_nil r.date⟩
  · intro r _
    exact List.count_filter (by simp)
  · intro d r hne
    refine List.count_eq_zero.mpr ?_
    intro hmem
    exact hne (by simpa using (List.mem_filter.mp hmem).2)
  · intro d
    exact (List.countP_eq_length_filter _ _).symm

/-- Sample attendance records: two on one day, one on another. -/
def sampleRecordA : AttendanceRecord := rowToRecord sampleRow

/-- Second sample record, same day as the first. -/
def sampleRecordB : AttendanceRecord := { sampleRecordA with id := "r2", userName := "Budi" }

/-- Third sample record, on a different day. -/
def sampleRecordC : AttendanceRecord := { sampleRecordA with id := "r3", date := "11/5/2024" }

/-- Sample attendance list for concrete instantiations. -/
def sampleAtts : List AttendanceRecord := [sampleRecordA, sampleRecordB, sampleRecordC]

/-- Witness for C7 on the sample list: the bucket index is duplicate-free,
every sample record's date is indexed, and the displayed count of the shared
day is 2. -/
theorem groupByDate_partition_witness :
    (uniqueDates sampleAtts).Nodup ∧
    sampleRecordA.date ∈ uniqueDates sampleAtts ∧
    dateCount sampleAtts "10/5/2024" = 2 :=
  ⟨(groupByDate_partition sampleAtts).1,
   (groupByDate_partition sampleAtts).2.1 sampleRecordA (by decide),
   ((groupByDate_partition sampleAtts).2.2.2.2 "10/5/2024").trans (by decide)⟩

/-! ### C8 and C9: tabular export -/

theorem splitCSVAux_copy_out (l : List Char) (h : ∀ c ∈ l, c ≠ '"' ∧ c ≠ ',') :
    ∀ (rest cur : List Char),
      splitCSVAux (l ++ rest) false cur = splitCSVAux rest false (l.reverse ++ cur) := by
  induction l with
  | nil =>
    intro rest cur
    simp
  | cons c l ih =>
    intro rest cur
    have hc := h c (List.mem_cons_self c l)
    have hstep : splitCSVAux (c :: (l ++ rest)) false cur =
        splitCSVAux (l ++ rest) false (c :: cur) := by
      simp [splitCSVAux, hc.1, hc.2]
    rw [List.cons_append, hstep, ih (fun c2 hc2 => h c2 (List.mem_cons_of_mem c hc2)) rest (c :: cur)]
    simp

theorem splitCSVAux_copy_in (l : List Char) (h : ∀ c ∈ l, c ≠ '"') :
    ∀ (rest cur : List Char),
      splitCSVAux (l ++ rest) true cur = splitCSVAux rest true (l.reverse ++ cur) := by
  induction l with
  | nil =>
    intro rest cur
    simp
  | cons c l ih =>
    intro rest cur
    have hc := h c (List.mem_cons_self c l)
    have hstep : splitCSVAux (c :: (l ++ rest)) true cur =
        splitCSVAux (l ++ rest) true (c :: cur) := by
      simp [splitCSVAux, hc]
    rw [List.cons_append, hstep, ih (fun c2 hc2 => h c2 (List.mem_cons_of_mem c hc2)) rest (c :: cur)]
    simp

theorem splitCSVAux_quoted (l : List Char) (h : ∀ c ∈ l, c ≠ '"') (rest cur : List Char) :
    splitCSVAux ('"' :: (l ++ '"' :: rest)) false cur =
      splitCSVAux rest false (l.reverse ++ cur) := by
  have h1 : splitCSVAux ('"' :: (l ++ '"' :: rest)) false cur =
      splitCSVAux (l ++ '"' :: rest) true cur := by
    simp [splitCSVAux]
  have h2 : splitCSVAux ('"' :: rest) true (l.reverse ++ cur) =
      splitCSVAux rest false (l.reverse ++ cur) := by
    simp [splitCSVAux]
  rw [h1, splitCSVAux_copy_in l h ('"' :: rest) cur, h2]

theorem splitCSVAux_comma (rest cur : List Char) :
    splitCSVAux (',' :: rest) false cur =
      String.mk cur.reverse :: splitCSVAux rest false [] := by
  simp [splitCSVAux]

/-- A row of seven fields in the exact textual shape produced by `csvRow`
(fields 2, 5, 6, 7 double-quoted, field 7 containing the `", "`-separated
coordinate pair) splits back into exactly those seven fields, provided no
field contains a double quote and the unquoted fields contain no comma. -/
theorem splitCSVAux_seven (u n dt tm p ds la ln : List Char)
    (hu : ∀ c ∈ u, c ≠ '"' ∧ c ≠ ',') (hn : ∀ c ∈ n, c ≠ '"')
    (hdt : ∀ c ∈ dt, c ≠ '"' ∧ c ≠ ',') (htm : ∀ c ∈ tm, c ≠ '"' ∧ c ≠ ',')
    (hp : ∀ c ∈ p, c ≠ '"') (hds : ∀ c ∈ ds, c ≠ '"')
    (hla : ∀ c ∈ la, c ≠ '"') (hln : ∀ c ∈ ln, c ≠ '"') :
    splitCSVAux (u ++ (',' :: '"' :: (n ++ '"' :: ',' :: (dt ++ ',' :: (tm ++ ',' :: '"' ::
      (p ++ '"' :: ',' :: '"' :: (ds ++ '"' :: ',' :: '"' ::
      ((la ++ ',' :: ' ' :: ln) ++ '"' :: []))))))))
      false [] =
      [String.mk u, String.mk n, String.mk dt, String.mk tm, String.mk p, String.mk ds,
       String.mk (la ++ ',' :: ' ' :: ln)] := by
  have hloc : ∀ c ∈ la ++ ',' :: ' ' :: ln, c ≠ '"' := by
    intro c hc
    rcases List.mem_append.mp hc with h1 | h1
    · exact hla c h1
    · rcases List.mem_cons.mp h1 with h2 | h2
      · rw [h2]
        decide
      · rcases List.mem_cons.mp h2 with h3 | h3
        · rw [h3]
          decide
        · exact hln c h3
  rw [splitCSVAux_copy_out u hu, splitCSVAux_comma, splitCSVAux_quoted n hn,
    splitCSVAux_comma, splitCSVAux_copy_out dt hdt, splitCSVAux_comma,
    splitCSVAux_copy_out tm htm, splitCSVAux_comma, splitCSVAux_quoted p hp,
    splitCSVAux_comma, splitCSVAux_quoted ds hds, splitCSVAux_comma,
    splitCSVAux_quoted (la ++ ',' :: ' ' :: ln) hloc]
  simp [splitCSVAux]

/-- Character-level decomposition of one produced CSV row. -/
theorem csvRow_data (d : AttendanceRecord) :
    (csvRow d).data = d.userId.data ++ (',' :: '"' :: (d.userName.data ++ '"' :: ',' ::
      (d.date.data ++ ',' :: (d.time.data ++ ',' :: '"' ::
      (d.position.data ++ '"' :: ',' :: '"' :: (d.description.data ++ '"' :: ',' :: '"' ::
      ((d.location.lat.render.data ++ ',' :: ' ' :: d.location.lng.render.data) ++
        '"' :: []))))))) := by
  have h1 : (",\"" : String).data = [',', '"'] := rfl
  have h2 : ("\"," : String).data = ['"', ','] := rfl
  have h3 : ("," : String).data = [','] := rfl
  have h4 : ("\",\"" : String).data = ['"', ',', '"'] := rfl
  have h5 : ("\"" : String).data = ['"'] := rfl
  have h6 : (", " : String).data = [',', ' '] := rfl
  simp [csvRow, h1, h2, h3, h4, h5, h6]

/-- Per-field well-formedness needed for a lossless export row: no field
contains a double quote or a newline, and the unquoted fields (`userId`,
`date`, `time`) contain no comma either. -/
def rowFieldsOk (d : AttendanceRecord) : Prop :=
  (∀ c ∈ d.userId.data, c ≠ '"' ∧ c ≠ ',' ∧ c ≠ '\n') ∧
  (∀ c ∈ d.userName.data, c ≠ '"' ∧ c ≠ '\n') ∧
  (∀ c ∈ d.date.data, c ≠ '"' ∧ c ≠ ',' ∧ c ≠ '\n') ∧
  (∀ c ∈ d.time.data, c ≠ '"' ∧ c ≠ ',' ∧ c ≠ '\n') ∧
  (∀ c ∈ d.position.data, c ≠ '"' ∧ c ≠ '\n') ∧
  (∀ c ∈ d.description.data, c ≠ '"' ∧ c ≠ '\n') ∧
  (∀ c ∈ d.location.lat.render.data, c ≠ '"' ∧ c ≠ '\n') ∧
  (∀ c ∈ d.location.lng.render.data, c ≠ '"' ∧ c ≠ '\n')

instance (d : AttendanceRecord) : Decidable (rowFieldsOk d) := by
  unfold rowFieldsOk
  infer_instance

/-- A produced row with well-formed fields splits back into exactly the seven
exported columns. -/
theorem splitCSV_csvRow (d : AttendanceRecord) (h : rowFieldsOk d) :
    splitCSV (csvRow d) = [d.userId, d.userName, d.date, d.time, d.position, d.description,
      d.location.lat.render ++ ", " ++ d.location.lng.render] := by
  obtain ⟨hu, hn, hdt, htm, hp, hds, hla, hln⟩ := h
  show splitCSVAux (csvRow d).data false [] = _
  rw [csvRow_data d,
    splitCSVAux_seven d.userId.data d.userName.data d.date.data d.time.data d.position.data
      d.description.data d.location.lat.render.data d.location.lng.render.data
      (fun c hc => ⟨(hu c hc).1, (hu c hc).2.1⟩) (fun c hc => (hn c hc).1)
      (fun c hc => ⟨(hdt c hc).1, (hdt c hc).2.1⟩) (fun c hc => ⟨(htm c hc).1, (htm c hc).2.1⟩)
      (fun c hc => (hp c hc).1) (fun c hc => (hds c hc).1)
      (fun c hc => (hla c hc).1) (fun c hc => (hln c hc).1)]
  have hlast : String.mk (d.location.lat.render.data ++ ',' :: ' ' ::
      d.location.lng.render.data) =
      d.location.lat.render ++ ", " ++ d.location.lng.render := by
    apply String.ext
    simp [show (", " : String).data = [',', ' '] from rfl]
  rw [hlast]

theorem count_zero_of_forall_ne {l : List Char} {x : Char} (h : ∀ c ∈ l, c ≠ x) :
    l.count x = 0 :=
  List.count_eq_zero.mpr fun hx => (h x hx) rfl

/-- A row with well-formed fields contains no newline character. -/
theorem csvRow_newline_free (d : AttendanceRecord) (h : rowFieldsOk d) :
    (csvRow d).data.count '\n' = 0 := by
  obtain ⟨hu, hn, hdt, htm, hp, hds, hla, hln⟩ := h
  rw [csvRow_data d]
  simp [List.count_append, List.count_cons,
    count_zero_of_forall_ne fun c hc => (hu c hc).2.2,
    count_zero_of_forall_ne fun c hc => (hn c hc).2,
    count_zero_of_forall_ne fun c hc => (hdt c hc).2.2,
    count_zero_of_forall_ne fun c hc => (htm c hc).2.2,
    count_zero_of_forall_ne fun c hc => (hp c hc).2,
    count_zero_of_forall_ne fun c hc => (hds c hc).2,
    count_zero_of_forall_ne fun c hc => (hla c hc).2,
    count_zero_of_forall_ne fun c hc => (hln c hc).2]

/-- Newline bookkeeping for the join: with newline-free elements the document
has exactly one newline per element boundary. -/
theorem jsJoin_newline_count (l : List String) (h : ∀ s ∈ l, s.data.count '\n' = 0) :
    (jsJoin "\n" l).data.count '\n' = l.length - 1 := by
  induction l with
  | nil => rfl
  | cons a l ih =>
    cases l with
    | nil =>
      show a.data.count '\n' = 0
      exact h a (List.mem_cons_self a [])
    | cons b m =>
      have ha := h a (List.mem_cons_self a (b :: m))
      have hrest := ih fun s hs => h s (List.mem_cons_of_mem a hs)
      show (a ++ "\n" ++ jsJoin "\n" (b :: m)).data.count '\n' = (b :: m).length + 1 - 1
      rw [String.data_append, String.data_append, List.count_append, List.count_append, ha,
        show ("\n" : String).data.count '\n' = 1 from rfl, hrest]
      simp
      omega

/-- Counterexample for C8: the export does not escape quotes or newlines.  A
record whose description contains a newline produces a document with two
newline characters for a single record (a spurious row boundary), and a record
whose name contains a double quote produces a row that CSV-splits into three
fields instead of seven (corrupted column boundaries). -/
theorem exportTabular_quoting_counterexample :
    (csvContent [{ sampleRecordA with description := "line1\nline2" }]).data.count '\n' = 2 ∧
    (splitCSV (csvRow { sampleRecordA with userName := "a\"b" })).length = 3 := by
  constructor
  · rfl
  · rfl

/-- Claim C8 (amended): every free-text field is emitted inside double quotes, so
embedded commas in free text cannot corrupt column boundaries; but embedded
double quotes and newlines are not escaped, so well-formedness holds exactly
for records without them.  For every record list whose fields are quote-free
and newline-free (commas allowed in the quoted free-text fields), each
produced row CSV-splits back into exactly the seven exported columns and the
document has exactly one newline per produced row — one well-formed row per
record. -/
theorem exportTabular_quoting (data : List AttendanceRecord)
    (h : ∀ d ∈ data, rowFieldsOk d) :
    (∀ d ∈ data, splitCSV (csvRow d) =
      [d.userId, d.userName, d.date, d.time, d.position, d.description,
       d.location.lat.render ++ ", " ++ d.location.lng.render]) ∧
    (csvContent data).data.count '\n' = data.length := by
  constructor
  · intro d hd
    exact splitCSV_csvRow d (h d hd)
  · show (jsJoin "\n" (csvHeader :: data.map csvRow)).data.count '\n' = data.length
    rw [jsJoin_newline_count]
    · simp
    · intro s hs
      rcases List.mem_cons.mp hs with hhd | hrow
      · rw [hhd]
        rfl
      · rcases List.mem_map.mp hrow with ⟨d, hd, rfl⟩
        exact csvRow_newline_free d (h d hd)

/-- Sample record whose free-text name contains an embedded comma. -/
def sampleCommaRec : AttendanceRecord := { sampleRecordA with userName := "Doe, Jane" }

/-- Witness for the amended C8: the comma inside the quoted name does not
corrupt the row — it still splits into the seven columns — and the one-record
document has exactly one newline. -/
theorem exportTabular_quoting_witness :
    splitCSV (csvRow sampleCommaRec) =
      [sampleCommaRec.userId, sampleCommaRec.userName, sampleCommaRec.date, sampleCommaRec.time,
       sampleCommaRec.position, sampleCommaRec.description,
       sampleCommaRec.location.lat.render ++ ", " ++ sampleCommaRec.location.lng.render] ∧
    (csvContent [sampleCommaRec]).data.count '\n' = 1 :=
  ⟨(exportTabular_quoting [sampleCommaRec] (by decide)).1 sampleCommaRec
      (List.mem_cons_self _ _),
   (exportTabular_quoting [sampleCommaRec] (by decide)).2⟩

/-! ### C9: the concrete export format -/

theorem intercalate_go_eq (sep : String) : ∀ (as : List String) (acc : String),
    String.intercalate.go acc sep as = jsJoin sep (acc :: as) := by
  intro as
  induction as with
  | nil =>
    intro acc
    rfl
  | cons b as ih =>
    intro acc
    show String.intercalate.go (acc ++ sep ++ b) sep as = _
    rw [ih (acc ++ sep ++ b)]
    cases as with
    | nil => rfl
    | cons c rest =>
      show (acc ++ sep ++ b) ++ sep ++ jsJoin sep (c :: rest) =
        acc ++ sep ++ (b ++ sep ++ jsJoin sep (c :: rest))
      simp [String.append_assoc]

/-- `Array.prototype.join` coincides with `String.intercalate`. -/
theorem jsJoin_eq_intercalate (sep : String) (l : List String) :
    jsJoin sep l = String.intercalate sep l := by
  cases l with
  | nil => rfl
  | cons a as =>
    show jsJoin sep (a :: as) = String.intercalate.go a sep as
    rw [intercalate_go_eq sep as a]

/-- Specification-side double quoting of a free-text field. -/
def quotedField (s : String) : String := "\"" ++ s ++ "\""

/-- Specification-side header row (amended: the Indonesian column names
actually produced). -/
def specExportHeader : String := "NIP,Nama,Tanggal,Jam,Jabatan,Keterangan,Lokasi"

/-- Specification-side export row: the seven columns identifier, name, date,
time, position, description, location joined by commas, free-text and
location fields double-quoted, the location rendered as `lat, lng`. -/
def specExportRow (d : AttendanceRecord) : String :=
  String.intercalate ","
    [d.userId, quotedField d.userName, d.date, d.time, quotedField d.position,
     quotedField d.description,
     quotedField (d.location.lat.render ++ ", " ++ d.location.lng.render)]

/-- Specification-side export document: header row followed by one row per
record, newline-separated. -/
def specExportDocument (data : List AttendanceRecord) : String :=
  String.intercalate "\n" (specExportHeader :: data.map specExportRow)

/-- Specification-side filename: `Absensi_` prefix, the date with every `/`
replaced by `-`, extension `.csv`. -/
def specExportFilename (date : String) : String :=
  "Absensi_" ++ jsReplaceChar '/' '-' date ++ ".csv"

theorem csvRow_eq_specExportRow (d : AttendanceRecord) : csvRow d = specExportRow d := by
  unfold specExportRow
  rw [← jsJoin_eq_intercalate]
  apply String.ext
  have h6 : (", " : String).data = [',', ' '] := rfl
  simp [csvRow_data, jsJoin, quotedField, h6]

/-- Counterexample for C9: the produced header row and filename differ from
the claimed `ID,Name,Date,Time,Position,Description,Location` header and
`Attendance_…` filename — the code emits Indonesian column names and an
`Absensi_` prefix. -/
theorem exportTabular_format_counterexample :
    csvHeader ≠ "ID,Name,Date,Time,Position,Description,Location" ∧
    csvFilename "10/5/2024" ≠ "Attendance_10-5-2024.csv" ∧
    csvFilename "10/5/2024" = "Absensi_10-5-2024.csv" := by
  refine ⟨by decide, by decide, rfl⟩

/-- Claim C9 (amended): the export is comma-separated with header row
`NIP,Nama,Tanggal,Jam,Jabatan,Keterangan,Lokasi`, one row per record in the
order identifier, name, date, time, position, description, location, with the
free-text fields double-quoted and the location rendered as `"lat, lng"`, and
the download filename is `Absensi_<date-with-separators-replaced>.csv`. -/
theorem exportTabular_format (data : List AttendanceRecord) (date : String) :
    csvContent data = specExportDocument data ∧ csvFilename date = specExportFilename date := by
  constructor
  · unfold csvContent specExportDocument
    rw [← jsJoin_eq_intercalate]
    show jsJoin "\n" (csvHeader :: data.map csvRow) =
      jsJoin "\n" (specExportHeader :: data.map specExportRow)
    rw [show csvHeader = specExportHeader from rfl,
      List.map_congr_left fun d _ => csvRow_eq_specExportRow d]
  · rfl

/-! ### C10: bulk provisioning from CSV -/

theorem generatePassword_wellformed (rng : Nat → Nat) (pos : Nat) :
    (generatePassword rng pos).1.length = 6 ∧
    ∀ c ∈ (generatePassword rng pos).1.data, c ∈ passwordChars.data := by
  constructor
  · show ((List.range 6).map fun i => passwordChars.data.getD (rng (pos + i) % 36) '*').length = 6
    simp
  · intro c hc
    have hc2 : c ∈ (List.range 6).map fun i => passwordChars.data.getD (rng (pos + i) % 36) '*' :=
      hc
    rcases List.mem_map.mp hc2 with ⟨i, _, rfl⟩
    have hlt : rng (pos + i) % 36 < passwordChars.data.length := by
      have h36 : passwordChars.data.length = 36 := by decide
      rw [h36]
      exact Nat.mod_lt _ (by omega)
    rw [List.getD_eq_getElem passwordChars.data '*' hlt]
    exact List.getElem_mem hlt

theorem importLine_fold_new_users (rng : Nat → Nat) (lines : List String) :
    ∀ (users : List UserT) (count pos : Nat),
      ∃ newUsers : List UserT,
        (lines.foldl (importLine rng) (users, count, pos)).1 = users ++ newUsers ∧
        ∀ u ∈ newUsers, u.password.length = 6 ∧ ∀ c ∈ u.password.data, c ∈ passwordChars.data := by
  induction lines with
  | nil =>
    intro users count pos
    exact ⟨[], by simp, by simp⟩
  | cons line lines ih =>
    intro users count pos
    by_cases hlen : 2 ≤ (jsSplitChar ',' line).length
    · cases hadd : addUser users (importCandidate rng pos line) with
      | none =>
        have hstep : importLine rng (users, count, pos) line = (users, count, pos + 6) := by
          simp [importLine, hlen, hadd, generatePassword]
        rw [List.foldl_cons, hstep]
        exact ih users count (pos + 6)
      | some users2 =>
        have husers2 : users2 = users ++ [importCandidate rng pos line] := by
          unfold addUser at hadd
          split at hadd
          · cases hadd
          · cases hadd
            rfl
        have hstep : importLine rng (users, count, pos) line = (users2, count + 1, pos + 6) := by
          simp [importLine, hlen, hadd, generatePassword]
        rw [List.foldl_cons, hstep]
        obtain ⟨newUsers, hN1, hN2⟩ := ih users2 (count + 1) (pos + 6)
        refine ⟨importCandidate rng pos line :: newUsers, ?_, ?_⟩
        · rw [hN1, husers2]
          simp
        · intro u hu
          rcases List.mem_cons.mp hu with rfl | hu2
          · exact ⟨(generatePassword_wellformed rng pos).1, (generatePassword_wellformed rng pos).2⟩
          · exact hN2 u hu2
    · have hstep : importLine rng (users, count, pos) line = (users, count, pos) := by
        simp [importLine, hlen]
      rw [List.foldl_cons, hstep]
      exact ih users count pos

/-- Claim C10: bulk import never provisions from the file's first line (the loop
starts at index 1, so the import outcome does not depend on the first line's
content, even if it held valid user data); a line splitting into fewer than
two comma-separated fields is skipped with the whole state — including the
success count — unchanged; and every user the import adds to the table
carries a freshly generated 6-character password drawn from the lowercase
letter/digit alphabet. -/
theorem bulkProvision_import (users : List UserT) (rng : Nat → Nat) :
    (∀ text, handleImport users text rng = handleImportLines users (jsSplitChar '\n' text) rng) ∧
    (∀ hd1 hd2 rest, handleImportLines users (hd1 :: rest) rng =
        handleImportLines users (hd2 :: rest) rng) ∧
    (∀ (state : List UserT × Nat × Nat) (line : String),
        (jsSplitChar ',' line).length < 2 → importLine rng state line = state) ∧
    (∀ lines : List String, ∃ newUsers : List UserT,
        (handleImportLines users lines rng).1 = users ++ newUsers ∧
        ∀ u ∈ newUsers, u.password.length = 6 ∧
          ∀ c ∈ u.password.data, c ∈ passwordChars.data) := by
  refine ⟨fun _ => rfl, fun hd1 hd2 rest => rfl, ?_, ?_⟩
  · intro state line hshort
    have h2 : ¬ 2 ≤ (jsSplitChar ',' line).length := by omega
    simp [importLine, h2]
  · intro lines
    exact importLine_fold_new_users rng (lines.drop 1) users 0 0

/-- Witness for C10: a one-field line is skipped with the state unchanged;
the import result is insensitive to the first line; and importing a two-line
file adds users whose generated passwords are 6 characters over the
alphabet. -/
theorem bulkProvision_import_witness :
    importLine (fun n => n) ([], 0, 0) "justonefield" = ([], 0, 0) ∧
    handleImportLines [] ["M001,Jane,admin", "M002,Budi"] (fun n => n) =
      handleImportLines [] ["garbage-header", "M002,Budi"] (fun n => n) ∧
    ∃ newUsers : List UserT,
      (handleImportLines [] ["header", "M002,Budi"] (fun n => n)).1 = [] ++ newUsers ∧
      ∀ u ∈ newUsers, u.password.length = 6 ∧
        ∀ c ∈ u.password.data, c ∈ passwordChars.data :=
  ⟨(bulkProvision_import [] (fun n => n)).2.2.1 ([], 0, 0) "justonefield" (by decide),
   (bulkProvision_import [] (fun n => n)).2.1 "M001,Jane,admin" "garbage-header" ["M002,Budi"],
   (bulkProvision_import [] (fun n => n)).2.2.2 ["header", "M002,Budi"]⟩

end KontrolKeamanan
